/-
Verification of the QuantLive validation/decision engine against its
specification.

This file shallowly embeds the services the claims concern:
  * `app/services/trade_simulator.py`   (TradeSimulator.simulate_trade)
  * `app/services/metrics_calculator.py` (MetricsCalculator.compute)
  * `app/services/walk_forward.py`      (WalkForwardValidator.validate)
  * `app/services/param_optimizer.py`   (ParamOptimizer)
  * `app/services/feedback_controller.py` (circuit breaker)
  * `app/services/risk_manager.py`      (RiskManager.check / position size)
  * `app/services/strategy_selector.py` (backtest-result fetching)

Python floats and Decimals are modelled as exact rationals (`ℚ`); the
Decimal output-boundary roundings `round(x, 2)` / `round(x, 4)` are
modelled by `round2` / `round4` (round to nearest; Python uses
round-half-even for exact ties, a difference that is irrelevant to every
statement proved here since no tie values arise).  Database reads are
modelled as explicit list arguments, ordered the way the corresponding
SQL query orders them.  `math.sqrt`, which appears only in the Sharpe
ratio, is not rational-valued and is therefore passed to the metrics
calculator as an explicit function argument (none of the claims depend
on its value).  Randomness (Monte Carlo shuffles, parameter sampling) is
modelled by quantifying over the drawn values.
-/
import Mathlib

namespace QuantLive

/-- Round a rational to `n` decimal places (model of Python `round(x, n)`
at the Decimal output boundary of the services). -/
def roundQ (n : ℕ) (x : ℚ) : ℚ := ((round (x * 10 ^ n) : ℤ) : ℚ) / 10 ^ n

/-- Round to 2 decimal places, as in `Decimal(str(round(x, 2)))`. -/
def round2 (x : ℚ) : ℚ := roundQ 2 x

/-- Round to 4 decimal places, as in `Decimal(str(round(x, 4)))`. -/
def round4 (x : ℚ) : ℚ := roundQ 4 x

/-- A rational representable with two decimal places.  Signal prices and
candle prices are fixed-point values with 2 decimal places (DB columns
`Numeric(10, 2)`; `CandidateSignal` fields declare `decimal_places=2`). -/
def TwoDP (x : ℚ) : Prop := ∃ z : ℤ, x = (z : ℚ) / 100

/-- Clamp `x` into `[lo, hi]`, written the way the spec writes it
(`clamp(baselineATR ÷ currentATR, 0.5, 1.5)`). -/
def clampQ (x lo hi : ℚ) : ℚ := min (max x lo) hi

/-! ## Trade simulator (`app/services/trade_simulator.py`) -/

/-- Signal direction (`app/strategies/base.py`, `Direction`). -/
inductive Direction where
  | buy
  | sell
deriving DecidableEq, Repr

/-- A candidate signal (`app/strategies/base.py`, `CandidateSignal`).
Only the fields read by the simulator and the risk gate are carried;
the remaining fields (strategy/symbol/timeframe names, risk:reward,
confidence, rationale text, timestamps) are never inspected by the code
under verification. -/
structure CandidateSignal where
  direction : Direction
  entry_price : ℚ
  stop_loss : ℚ
  take_profit_1 : ℚ
  take_profit_2 : ℚ
deriving DecidableEq, Repr

/-- Possible outcomes for a simulated trade (`TradeOutcome`). -/
inductive TradeOutcome where
  | TP1_HIT
  | TP2_HIT
  | SL_HIT
  | EXPIRED
deriving DecidableEq, Repr

/-- Result of simulating a single `CandidateSignal` (`SimulatedTrade`). -/
structure SimulatedTrade where
  signal : CandidateSignal
  outcome : TradeOutcome
  exit_price : ℚ
  pnl_pips : ℚ
  bars_held : ℕ
  spread_cost : ℚ
deriving DecidableEq, Repr

/-- One OHLC bar.  The simulator reads only `high`, `low` and `close`
from the candle DataFrame rows. -/
structure Bar where
  high : ℚ
  low : ℚ
  close : ℚ
deriving DecidableEq, Repr

/-- Stop-loss test on one bar: `bar_low <= sl` for BUY, and
`(bar_high + spread) >= sl` (ask side) for SELL. -/
def slCond (isBuy : Bool) (sl spread : ℚ) (b : Bar) : Bool :=
  if isBuy then decide (b.low ≤ sl) else decide (sl ≤ b.high + spread)

/-- Take-profit-2 test on one bar: `bar_high >= tp2` for BUY,
`bar_low <= tp2` for SELL. -/
def tp2Cond (isBuy : Bool) (tp2 : ℚ) (b : Bar) : Bool :=
  if isBuy then decide (tp2 ≤ b.high) else decide (b.low ≤ tp2)

/-- Take-profit-1 test on one bar: `bar_high >= tp1` for BUY,
`bar_low <= tp1` for SELL. -/
def tp1Cond (isBuy : Bool) (tp1 : ℚ) (b : Bar) : Bool :=
  if isBuy then decide (tp1 ≤ b.high) else decide (b.low ≤ tp1)

/-- The bar-walking loop of `simulate_trade` (lines 91-153): on each bar
test SL first, then TP2, then TP1; on a hit return the outcome, the raw
exit level and the `bars_held` count; otherwise move to the next bar.
`k` is the `bars_held` value of the current bar (`i - signal_bar_idx`). -/
def walkBars (isBuy : Bool) (sl tp1 tp2 spread : ℚ) :
    List Bar → ℕ → Option (TradeOutcome × ℚ × ℕ)
  | [], _ => none
  | b :: rest, k =>
    if slCond isBuy sl spread b then some (.SL_HIT, sl, k)
    else if tp2Cond isBuy tp2 b then some (.TP2_HIT, tp2, k)
    else if tp1Cond isBuy tp1 b then some (.TP1_HIT, tp1, k)
    else walkBars isBuy sl tp1 tp2 spread rest (k + 1)

/-- The bars actually examined by the walk: the 72-bar horizon starting
at the bar after the signal bar (`range(signal_bar_idx + 1,
min(signal_bar_idx + 1 + 72, len(candles)))`). -/
def walkedBars (candles : List Bar) (signalBarIdx : ℕ) : List Bar :=
  (candles.drop (signalBarIdx + 1)).take 72

/-- Signed PnL in pips: price delta divided by `PIP_VALUE = 0.10`. -/
def pnlOf (isBuy : Bool) (adjEntry exitPrice : ℚ) : ℚ :=
  (if isBuy then exitPrice - adjEntry else adjEntry - exitPrice) * 10

/-- Whether the signal is a BUY (`signal.direction == Direction.BUY`). -/
def isBuySig (sig : CandidateSignal) : Bool := sig.direction = Direction.buy

/-- No exit condition (SL, TP2 or TP1) holds on the bar: the walk moves
past it. -/
def noExit (isBuy : Bool) (sl tp1 tp2 spread : ℚ) (b : Bar) : Prop :=
  slCond isBuy sl spread b = false ∧ tp2Cond isBuy tp2 b = false ∧
    tp1Cond isBuy tp1 b = false

/-- The exit price of an expired trade: the close of the last examined
bar, or — when no bars follow the signal bar — the spread-adjusted entry
(`entry + spread` for BUY, `entry` for SELL). -/
def expiryExit (sig : CandidateSignal) (candles : List Bar) (signalBarIdx : ℕ)
    (spread : ℚ) : ℚ :=
  match (walkedBars candles signalBarIdx).getLast? with
  | some lb => lb.close
  | none => if isBuySig sig then sig.entry_price + spread else sig.entry_price

/-- `TradeSimulator.simulate_trade`: walk the signal forward through the
bars after the signal bar; SL has priority over TP2 over TP1 on a bar;
if nothing triggers within the horizon the trade expires at the last
examined bar's close, or (when no bars follow the signal bar) at the
spread-adjusted entry with zero bars held. -/
def simulateTrade (sig : CandidateSignal) (candles : List Bar)
    (signalBarIdx : ℕ) (spread : ℚ) : SimulatedTrade :=
  let isBuy : Bool := isBuySig sig
  let adjEntry : ℚ := if isBuy then sig.entry_price + spread else sig.entry_price
  let bars := walkedBars candles signalBarIdx
  match walkBars isBuy sig.stop_loss sig.take_profit_1 sig.take_profit_2 spread bars 1 with
  | some (o, x, k) =>
    ⟨sig, o, round2 x, round2 (pnlOf isBuy adjEntry x), k, spread⟩
  | none =>
    match bars.getLast? with
    | none => ⟨sig, .EXPIRED, round2 adjEntry, round2 (pnlOf isBuy adjEntry adjEntry), 0, spread⟩
    | some lb => ⟨sig, .EXPIRED, round2 lb.close, round2 (pnlOf isBuy adjEntry lb.close),
        bars.length, spread⟩

/-! ## Metrics calculator (`app/services/metrics_calculator.py`) -/

/-- Aggregated performance metrics (`BacktestMetrics`).  The source field
`sharpe_ratio` is named `sharpe` here. -/
structure BacktestMetrics where
  win_rate : ℚ
  profit_factor : ℚ
  sharpe : ℚ
  max_drawdown : ℚ
  expectancy : ℚ
  total_trades : ℕ
deriving DecidableEq, Repr

/-- `MetricsCalculator._compute_max_drawdown`: largest peak-to-trough
decline of the cumulative-PnL curve. -/
def maxDrawdown (pnl : List ℚ) : ℚ :=
  (pnl.foldl
    (fun (acc : ℚ × ℚ × ℚ) p =>
      let c := acc.1 + p
      let pk := max acc.2.1 c
      (c, pk, max acc.2.2 (pk - c)))
    (0, 0, 0)).2.2

/-- True when the simulated trade counts as a win (`TP1_HIT` or `TP2_HIT`). -/
def isWin (t : SimulatedTrade) : Bool :=
  t.outcome = TradeOutcome.TP1_HIT ∨ t.outcome = TradeOutcome.TP2_HIT

/-- `MetricsCalculator.compute`.  `sqrtQ` models the library square root
`math.sqrt` (irrational in general, hence taken as an argument); it is
used only inside the Sharpe ratio and only when at least two trades are
present. -/
def compute (sqrtQ : ℚ → ℚ) (trades : List SimulatedTrade) : BacktestMetrics :=
  match trades with
  | [] => ⟨0, 0, 0, 0, 0, 0⟩
  | _ =>
    let pnl := trades.map (·.pnl_pips)
    let total : ℕ := trades.length
    let wins : ℕ := trades.countP isWin
    let win_rate : ℚ := (wins : ℚ) / (total : ℚ)
    let grossProfit := (pnl.filter (fun p => decide (0 < p))).sum
    let grossLoss := |(pnl.filter (fun p => decide (p < 0))).sum|
    let profit_factor : ℚ :=
      if grossLoss = 0 then (if 0 < grossProfit then 99999999 / 10000 else 0)
      else min (grossProfit / grossLoss) (99999999 / 10000)
    let expectancy : ℚ := pnl.sum / (total : ℚ)
    let sharpe : ℚ :=
      if total < 2 then 0
      else
        let meanPnl := pnl.sum / (total : ℚ)
        let variance := (pnl.map (fun p => (p - meanPnl) ^ 2)).sum / ((total : ℚ) - 1)
        let stdPnl := sqrtQ variance
        if stdPnl = 0 then 0 else meanPnl / stdPnl * sqrtQ 252
    ⟨round4 win_rate, round4 profit_factor, round4 sharpe,
      round4 (maxDrawdown pnl), round4 expectancy, total⟩

/-! ## Monte Carlo permutation test (`ParamOptimizer._monte_carlo_test`) -/

/-- Profit factor of one shuffled PnL sequence, exactly as recomputed
inside `_monte_carlo_test` (lines 336-344): gross profit over absolute
gross loss; when gross loss is zero, the gross profit itself if positive
(note: uncapped there, unlike `MetricsCalculator.compute`), else 0. -/
def profitFactorRaw (pnl : List ℚ) : ℚ :=
  let grossProfit := (pnl.filter (fun p => decide (0 < p))).sum
  let grossLoss := |(pnl.filter (fun p => decide (p < 0))).sum|
  if grossLoss = 0 then (if 0 < grossProfit then grossProfit else 0)
  else grossProfit / grossLoss

/-- `ParamOptimizer._monte_carlo_test`, with the 1000 drawn shuffles made
explicit as the list `perms`: returns 1.0 when there are no trades or
fewer than 10, else the fraction of shuffles whose recomputed profit
factor equals-or-beats the original (`MONTE_CARLO_RUNS = 1000`). -/
def monteCarloPValue (trades : List SimulatedTrade) (origMetrics : BacktestMetrics)
    (perms : List (List ℚ)) : ℚ :=
  if trades = [] ∨ origMetrics.total_trades < 10 then 1
  else ((perms.countP (fun p => decide (origMetrics.profit_factor ≤ profitFactorRaw p)) : ℚ)) / 1000

/-! ## Walk-forward validator (`app/services/walk_forward.py`) -/

/-- Result of walk-forward validation (`WalkForwardResult`).  The fields
`wfe_win_rate` / `wfe_profit_factor` are `None` when the corresponding
in-sample metric is not positive. -/
structure WalkForwardResult where
  is_metrics : BacktestMetrics
  oos_metrics : BacktestMetrics
  is_overfitted : Bool
  wfe_win_rate : Option ℚ
  wfe_profit_factor : Option ℚ
  insufficient_oos_trades : Bool
deriving DecidableEq, Repr

/-- The judgment part of `WalkForwardValidator.validate` (lines 112-170),
applied to the metrics of the two independent backtests (the 80/20 split
and the backtest runner itself are oracles here: the claim is about what
is done with their outputs).  `MIN_OOS_TRADES = 5`,
`DEGRADATION_THRESHOLD = 0.5`. -/
def walkForwardJudge (isM oosM : BacktestMetrics) : WalkForwardResult :=
  if oosM.total_trades < 5 then
    ⟨isM, oosM, false, none, none, true⟩
  else
    let wfeWinRate : Option ℚ :=
      if 0 < isM.win_rate then some (oosM.win_rate / isM.win_rate) else none
    let wfeProfitFactor : Option ℚ :=
      if 0 < isM.profit_factor then some (oosM.profit_factor / isM.profit_factor) else none
    let overfit : Bool :=
      (match wfeWinRate with | some v => decide (v < 1/2) | none => false)
      || (match wfeProfitFactor with | some v => decide (v < 1/2) | none => false)
    ⟨isM, oosM, overfit, wfeWinRate, wfeProfitFactor, false⟩

/-! ## Parameter optimizer (`app/services/param_optimizer.py`)

The optimizer orchestration is embedded from the point where every
sampled candidate has been backtested: a candidate is a pair of its
parameter set (an abstract type `α`) and the `BacktestMetrics` of its
30-day backtest.  The walk-forward validator, the Monte Carlo p-value
(randomized) and the per-window backtests of the multi-window check are
oracle functions of the parameter set, mirroring the calls
`wf_validator.validate`, `_monte_carlo_test` and
`runner.run_full_backtest(strategy, candles, window_days=w)`. -/

/-- Result of optimizing one strategy (`OptimizationResult`).  The source
field `wfe_ratio` is named `wfe_avg` here. -/
structure OptimizationResult (α : Type) where
  strategy_name : String
  best_params : α
  metrics : BacktestMetrics
  wfe_avg : Option ℚ
  is_overfitted : Bool
  combinations_tested : ℕ
  monte_carlo_pvalue : Option ℚ
deriving DecidableEq, Repr

/-- `ParamOptimizer._composite_score` (weights: win rate 0.30, profit
factor 0.25 capped at 3, Sharpe 0.15 mapped from [-1,3], expectancy 0.15
mapped from [-20,50], drawdown 0.15 inverted). -/
def compositeScore (m : BacktestMetrics) : ℚ :=
  let wr := m.win_rate
  let pf := min m.profit_factor 3 / 3
  let sr := max (min m.sharpe 3) (-1)
  let srNorm := (sr + 1) / 4
  let ex := max (min m.expectancy 50) (-20)
  let exNorm := (ex + 20) / 70
  let ddInv := 1 - m.max_drawdown
  3/10 * wr + 1/4 * pf + 3/20 * srNorm + 3/20 * exNorm + 3/20 * ddInv

/-- Stable descending insertion of `x` into a list already sorted by
`score` descending: `x` moves ahead of `y` only when strictly better. -/
def insertDesc {β : Type} (score : β → ℚ) (x : β) : List β → List β
  | [] => [x]
  | y :: ys => if score y < score x then x :: y :: ys else y :: insertDesc score x ys

/-- Stable sort by `score`, descending — the model of Python's stable
`scored.sort(key=lambda x: x[2], reverse=True)`. -/
def sortByScoreDesc {β : Type} (score : β → ℚ) : List β → List β
  | [] => []
  | x :: xs => insertDesc score x (sortByScoreDesc score xs)

/-- Viable candidates (at least `MIN_TRADES_OPTIMIZE = 10` trades),
ranked by composite score descending (steps 2-3 of `optimize_strategy`). -/
def sortedCandidates {α : Type} (cands : List (α × BacktestMetrics)) :
    List (α × BacktestMetrics) :=
  sortByScoreDesc (fun c => compositeScore c.2)
    (cands.filter (fun c => decide (10 ≤ c.2.total_trades)))

/-- Multi-window validation count: over `VALIDATION_WINDOWS = [7, 14, 30]`,
the number of windows whose re-backtest shows at least 10 trades and a
profit factor above 1.0. -/
def windowsPassed {α : Type} (btW : α → ℕ → BacktestMetrics) (a : α) : ℕ :=
  ([7, 14, 30] : List ℕ).countP
    (fun w => decide (10 ≤ (btW a w).total_trades) && decide (1 < (btW a w).profit_factor))

/-- Average walk-forward efficiency over the defined WFE values, as built
at lines 252-257 of `optimize_strategy` (`None` when neither is defined). -/
def avgWfe (r : WalkForwardResult) : Option ℚ :=
  let vs := ([r.wfe_win_rate, r.wfe_profit_factor] : List (Option ℚ)).filterMap id
  if vs = [] then none else some (vs.sum / (vs.length : ℚ))

/-- A top-5 candidate clears all three validation gates: walk-forward not
overfitted, Monte Carlo p-value not above `MONTE_CARLO_CONFIDENCE = 0.05`,
and at least `MIN_WINDOWS_PASSING = 2` of the 3 windows passing. -/
def passGates {α : Type} (wf : α → WalkForwardResult) (mcP : α → ℚ)
    (btW : α → ℕ → BacktestMetrics) (c : α × BacktestMetrics) : Bool :=
  !(wf c.1).is_overfitted && decide (mcP c.1 ≤ 1/20) && decide (2 ≤ windowsPassed btW c.1)

/-- The `OptimizationResult` returned for a candidate that cleared all
three gates (lines 273-281). -/
def passResult {α : Type} (name : String) (total : ℕ) (wf : α → WalkForwardResult)
    (mcP : α → ℚ) (c : α × BacktestMetrics) : OptimizationResult α :=
  ⟨name, c.1, c.2, avgWfe (wf c.1), false, total, some (mcP c.1)⟩

/-- The validation loop over the top-5 candidates (lines 200-290): reject
a candidate at its first failing gate — walk-forward, then Monte Carlo,
then multi-window — and move on; return the first candidate that clears
all three. -/
def validateLoop {α : Type} (name : String) (total : ℕ) (wf : α → WalkForwardResult)
    (mcP : α → ℚ) (btW : α → ℕ → BacktestMetrics) :
    List (α × BacktestMetrics) → Option (OptimizationResult α)
  | [] => none
  | c :: rest =>
    if (wf c.1).is_overfitted then validateLoop name total wf mcP btW rest
    else if 1/20 < mcP c.1 then validateLoop name total wf mcP btW rest
    else if windowsPassed btW c.1 < 2 then validateLoop name total wf mcP btW rest
    else some (passResult name total wf mcP c)

/-- `ParamOptimizer.optimize_strategy` from the point where the sampled
candidates have been backtested: drop candidates with fewer than 10
trades (returning `none` when none survive), rank by composite score,
validate the top `TOP_N_VALIDATE = 5`, and when all of them fail fall
back to the best-scored candidate flagged `is_overfitted = true`. -/
def optimizeStrategy {α : Type} (name : String) (cands : List (α × BacktestMetrics))
    (wf : α → WalkForwardResult) (mcP : α → ℚ) (btW : α → ℕ → BacktestMetrics) :
    Option (OptimizationResult α) :=
  let sorted := sortedCandidates cands
  match sorted with
  | [] => none
  | best :: _ =>
    match validateLoop name cands.length wf mcP btW (sorted.take 5) with
    | some r => some r
    | none => some ⟨name, best.1, best.2, none, true, cands.length, none⟩

/-! ## Circuit breaker (`app/services/feedback_controller.py`) -/

/-- Outcome result strings recorded by outcome detection
(`app/models/outcome.py`: `tp1_hit`, `tp2_hit`, `sl_hit`, `expired`). -/
inductive OutcomeRes where
  | tp1_hit
  | tp2_hit
  | sl_hit
  | expired
deriving DecidableEq, Repr

/-- One `Outcome` row: its result and its PnL in pips.  Lists of rows are
ordered by `created_at` ascending (oldest first). -/
structure OutcomeRow where
  result : OutcomeRes
  pnl_pips : ℚ
deriving DecidableEq, Repr

/-- Process-wide circuit-breaker state (`_circuit_breaker_active`,
`_circuit_breaker_triggered_at`; the timestamp is seconds). -/
structure CBState where
  active : Bool
  triggeredAt : Option ℚ
deriving DecidableEq, Repr

/-- `FeedbackController._count_consecutive_losses`: walking the outcomes
from the most recent backwards (the argument is most-recent-first), count
`sl_hit`/`expired` results until anything else is encountered. -/
def countConsecutiveLosses : List OutcomeRes → ℕ
  | [] => 0
  | r :: rest =>
    if r = OutcomeRes.sl_hit ∨ r = OutcomeRes.expired
    then countConsecutiveLosses rest + 1
    else 0

/-- `RiskManager.get_drawdown_metrics` on the chronological PnL series:
returns `(running_drawdown, max_drawdown)`, each rounded to 2 decimals. -/
def drawdownMetrics (pnls : List ℚ) : ℚ × ℚ :=
  let s := pnls.foldl
    (fun (acc : ℚ × ℚ × ℚ) p =>
      let r := acc.1 + p
      let pk := max acc.2.1 r
      (r, pk, max acc.2.2 (pk - r)))
    (0, 0, 0)
  (round2 (s.2.1 - s.1), round2 s.2.2)

/-- `FeedbackController.check_circuit_breaker`, as a pure transition on
the breaker state: `now` is the current time in seconds, `outs` the
outcome rows ascending by `created_at`.  Step 1 resets after the 24-hour
cooldown (`COOLDOWN_HOURS = 24`); step 2 re-checks the consecutive-loss
trigger (`CONSECUTIVE_LOSS_LIMIT = 5`); step 3 re-checks the drawdown
trigger (`DRAWDOWN_MULTIPLIER = 2`, skipped when the historical max
drawdown is zero); otherwise the breaker is cleared.  Returns the new
state and the returned `active` flag. -/
def checkCircuitBreaker (st : CBState) (now : ℚ) (outs : List OutcomeRow) :
    CBState × Bool :=
  let st1 : CBState :=
    match st.triggeredAt with
    | some t =>
      if st.active ∧ 24 ≤ (now - t) / 3600 then ⟨false, none⟩ else st
    | none => st
  let consecutive := countConsecutiveLosses ((outs.map (·.result)).reverse)
  if 5 ≤ consecutive then
    (if st1.active then st1 else ⟨true, some now⟩, true)
  else
    let dd := drawdownMetrics (outs.map (·.pnl_pips))
    if 0 < dd.2 ∧ 2 * dd.2 < dd.1 then
      (if st1.active then st1 else ⟨true, some now⟩, true)
    else
      (if st1.active then ⟨false, none⟩ else st1, false)

/-- Either circuit-breaker trigger condition holds on the recorded
outcomes: 5 or more consecutive losing/expired outcomes counted backward
from the most recent, or (when historical max drawdown is positive)
running drawdown above twice the historical max drawdown. -/
def cbTriggers (outs : List OutcomeRow) : Prop :=
  5 ≤ countConsecutiveLosses ((outs.map (·.result)).reverse)
  ∨ (0 < (drawdownMetrics (outs.map (·.pnl_pips))).2
      ∧ 2 * (drawdownMetrics (outs.map (·.pnl_pips))).2
          < (drawdownMetrics (outs.map (·.pnl_pips))).1)

instance (outs : List OutcomeRow) : Decidable (cbTriggers outs) := by
  unfold cbTriggers; infer_instance

/-! ## Risk gate (`app/services/risk_manager.py`) -/

/-- Per-candidate risk verdict (`RiskCheckResult`). -/
structure RiskCheckResult where
  approved : Bool
  rejection_reason : Option String
  position_size : Option ℚ
  risk_amount : Option ℚ
  daily_pnl : Option ℚ
deriving DecidableEq, Repr

/-- `RiskManager.calculate_position_size`: for valid inputs,
`(accountBalance * RISK_PER_TRADE / sl_distance) * atr_factor` with
`atr_factor = baseline_atr / current_atr` clamped to `[0.5, 1.5]`,
rounded to 2 decimals; any non-positive input yields the minimum
fallback `Decimal("0.01")`. -/
def calculatePositionSize (balance slDistance currentAtr baselineAtr : ℚ) : ℚ :=
  if slDistance ≤ 0 ∨ currentAtr ≤ 0 ∨ baselineAtr ≤ 0 then 1/100
  else
    let riskAmount := balance * (1/100)
    let atrFactor := max (1/2) (min (3/2) (baselineAtr / currentAtr))
    round2 (riskAmount / slDistance * atrFactor)

/-- The rejection handed to every candidate when the circuit breaker is
active (lines 97-105 of `RiskManager.check`). -/
def circuitRejection : RiskCheckResult :=
  ⟨false, some "Circuit breaker active: signal generation halted", none, none, none⟩

/-- `RiskManager.check` on one candidate batch.  Database reads are
explicit arguments: the circuit-breaker inputs (`st`, `now`, `outs`),
today's summed PnL in pips (`dailyPnlPips`), and the count of active
signals (`activeCount`).  Order: circuit breaker (reject all and stop),
daily 2% loss limit (reject all and stop), then per candidate the
concurrency limit (`MAX_CONCURRENT_SIGNALS = 2`) and position sizing.
The daily-loss and concurrency rejection reasons carry interpolated
numbers in the source; the constant prefixes are kept here. -/
def riskCheck (cands : List CandidateSignal) (st : CBState) (now : ℚ)
    (outs : List OutcomeRow) (dailyPnlPips : ℚ) (activeCount : ℕ)
    (balance currentAtr baselineAtr : ℚ) : List (CandidateSignal × RiskCheckResult) :=
  match cands with
  | [] => []
  | _ =>
    if (checkCircuitBreaker st now outs).2 then
      cands.map (fun c => (c, circuitRejection))
    else
      let dailyBreached : Bool :=
        dailyPnlPips ≠ 0 ∧ dailyPnlPips * (1/10) / balance ≤ -(1/50)
      if dailyBreached then
        cands.map (fun c =>
          (c, ⟨false, some "Daily loss limit breached", none, none, some dailyPnlPips⟩))
      else
        cands.map (fun c =>
          if 2 ≤ activeCount then
            (c, ⟨false, some "Concurrent signal limit", none, none, some dailyPnlPips⟩)
          else
            (c, ⟨true, none,
              some (calculatePositionSize balance |c.entry_price - c.stop_loss|
                currentAtr baselineAtr),
              some (balance * (1/100)), some dailyPnlPips⟩))

/-! ## Strategy selector fetch (`app/services/strategy_selector.py`) -/

/-- A persisted `BacktestResult` row, restricted to the columns the
fetch logic reads.  `created_at` is an abstract monotone timestamp. -/
structure BTRow where
  strategy_id : ℕ
  window_days : ℕ
  is_walk_forward : Option Bool
  created_at : ℕ
deriving DecidableEq, Repr

/-- Row filter of `_latest_result_for`: the strategy matches,
`is_walk_forward` IS NOT TRUE, and the window matches when requested. -/
def eligible (sid : ℕ) (w : Option ℕ) (r : BTRow) : Bool :=
  decide (r.strategy_id = sid) && !(r.is_walk_forward = some true)
    && (match w with | some d => decide (r.window_days = d) | none => true)

/-- Keep the row with the greater `created_at` (fold step of the
ORDER BY created_at DESC LIMIT 1 model). -/
def pickLatest (acc : Option BTRow) (r : BTRow) : Option BTRow :=
  match acc with
  | none => some r
  | some b => if b.created_at < r.created_at then some r else some b

/-- `StrategySelector._latest_result_for`: among the eligible rows, the
one with the greatest `created_at` (ORDER BY created_at DESC LIMIT 1;
on equal timestamps the earliest-stored row is kept, a tie the SQL
leaves unspecified). -/
def latestResultFor (rows : List BTRow) (sid : ℕ) (w : Option ℕ) : Option BTRow :=
  (rows.filter (eligible sid w)).foldl pickLatest none

/-- The per-strategy fetch loop of `_fetch_latest_results` (lines
314-319): try window 14, then 30, then 60, then 7, then any window,
returning the first hit. -/
def fetchLatestFor (rows : List BTRow) (sid : ℕ) : Option BTRow :=
  match latestResultFor rows sid (some 14) with
  | some r => some r
  | none =>
    match latestResultFor rows sid (some 30) with
    | some r => some r
    | none =>
      match latestResultFor rows sid (some 60) with
      | some r => some r
      | none =>
        match latestResultFor rows sid (some 7) with
        | some r => some r
        | none => latestResultFor rows sid none

/-! ## Concrete inputs used by witnesses and counterexamples -/

/-- A well-formed BUY signal (stop < entry < TP1 < TP2). -/
def exSignalBuy : CandidateSignal := ⟨Direction.buy, 100, 99, 102, 103⟩

/-- Three all-winning simulated trades with pip PnL `[50, 100, 30]`. -/
def winTrades : List SimulatedTrade :=
  [⟨exSignalBuy, TradeOutcome.TP1_HIT, 102, 50, 3, 3/10⟩,
   ⟨exSignalBuy, TradeOutcome.TP2_HIT, 103, 100, 5, 3/10⟩,
   ⟨exSignalBuy, TradeOutcome.TP1_HIT, 102, 30, 2, 3/10⟩]

/-- Ten simulated trades whose PnL sequence has nonzero gross loss. -/
def mcTrades : List SimulatedTrade :=
  [⟨exSignalBuy, TradeOutcome.TP1_HIT, 102, 50, 3, 3/10⟩,
   ⟨exSignalBuy, TradeOutcome.SL_HIT, 99, -20, 1, 3/10⟩,
   ⟨exSignalBuy, TradeOutcome.TP1_HIT, 102, 30, 4, 3/10⟩,
   ⟨exSignalBuy, TradeOutcome.SL_HIT, 99, -10, 2, 3/10⟩,
   ⟨exSignalBuy, TradeOutcome.TP2_HIT, 103, 40, 6, 3/10⟩,
   ⟨exSignalBuy, TradeOutcome.TP1_HIT, 102, 20, 5, 3/10⟩,
   ⟨exSignalBuy, TradeOutcome.TP1_HIT, 102, 10, 1, 3/10⟩,
   ⟨exSignalBuy, TradeOutcome.EXPIRED, 100, -5, 72, 3/10⟩,
   ⟨exSignalBuy, TradeOutcome.TP1_HIT, 102, 15, 7, 3/10⟩,
   ⟨exSignalBuy, TradeOutcome.TP1_HIT, 102, 25, 2, 3/10⟩]

/-- The PnL sequence of `mcTrades`. -/
def mcPnl : List ℚ := mcTrades.map (·.pnl_pips)

/-- Backtest metrics accompanying `mcTrades` (only `total_trades` and
`profit_factor` are read by the Monte Carlo test). -/
def mcMetrics : BacktestMetrics := ⟨7/10, 19/7, 1, 35, 31/2, 10⟩

/-- One possible draw of the 1000 Monte Carlo shuffles. -/
def mcPerms1 : List (List ℚ) := List.replicate 1000 mcPnl

/-- A different draw of the 1000 Monte Carlo shuffles. -/
def mcPerms2 : List (List ℚ) := List.replicate 1000 mcPnl.reverse

/-- A single-bar candle series: the signal bar itself, with no bars
following it. -/
def exCandles1 : List Bar := [⟨100, 100, 100⟩]

/-- A candle series whose second bar breaches both the stop (low 98) and
both take-profits (high 104) of `exSignalBuy` at once. -/
def exCandlesBoth : List Bar := [⟨100, 100, 100⟩, ⟨104, 98, 101⟩]

/-- Outcome rows (ascending by `created_at`): an old win followed by a
single recent loss — one consecutive loss, no drawdown trigger, and the
most recent outcome is not a win. -/
def cbOuts : List OutcomeRow :=
  [⟨OutcomeRes.tp1_hit, 50⟩, ⟨OutcomeRes.sl_hit, -20⟩]

/-- Outcome rows with five consecutive losses (activates the breaker). -/
def cbLossOuts : List OutcomeRow :=
  [⟨OutcomeRes.sl_hit, -20⟩, ⟨OutcomeRes.sl_hit, -20⟩, ⟨OutcomeRes.sl_hit, -20⟩,
   ⟨OutcomeRes.sl_hit, -20⟩, ⟨OutcomeRes.sl_hit, -20⟩]

/-- A viable candidate's backtest metrics (12 trades). -/
def exM0 : BacktestMetrics := ⟨1/2, 2, 1, 10, 5, 12⟩

/-- A one-candidate optimizer input whose only candidate is viable. -/
def exCands : List (ℕ × BacktestMetrics) := [(0, exM0)]

/-- A walk-forward oracle that flags every candidate as overfitted. -/
def exWf : ℕ → WalkForwardResult := fun _ => ⟨exM0, exM0, true, none, none, false⟩

/-- A Monte Carlo p-value oracle. -/
def exMcP : ℕ → ℚ := fun _ => 1

/-- A multi-window backtest oracle. -/
def exBtW : ℕ → ℕ → BacktestMetrics := fun _ _ => exM0

/-- A 7-day-window backtest row for strategy 1, most recent. -/
def exR7 : BTRow := ⟨1, 7, none, 100⟩

/-- A 14-day-window backtest row for strategy 1, older than `exR7`. -/
def exR14 : BTRow := ⟨1, 14, none, 50⟩

/-- Persisted backtest rows holding both a 7-day and a 14-day result for
strategy 1. -/
def exRows : List BTRow := [exR7, exR14]

/-! ## Helper lemmas -/

/-- The raw profit factor of `_monte_carlo_test` depends only on the
multiset of PnL values, not their order. -/
theorem profitFactorRaw_congr_perm {p q : List ℚ} (h : p.Perm q) :
    profitFactorRaw p = profitFactorRaw q := by
  unfold profitFactorRaw
  rw [(h.filter _).sum_eq, (h.filter _).sum_eq]

/-- Counting with a predicate that is constant on the list. -/
theorem countP_eq_of_const {α : Type} (f : α → Bool) (b : Bool) :
    ∀ l : List α, (∀ a ∈ l, f a = b) → l.countP f = if b then l.length else 0 := by
  intro l
  induction l with
  | nil => intro _; cases b <;> simp
  | cons a t ih =>
    intro h
    rw [List.countP_cons, ih (fun x hx => h x (List.mem_cons_of_mem a hx)),
      h a (List.mem_cons_self a t)]
    cases b <;> simp [Nat.add_comm]

/-! ## Claim C1 — Monte Carlo profit factor is permutation-invariant -/

/-- C1: for a trade list with at least 10 trades whose PnL sequence has
nonzero gross loss, the profit factor recomputed by the Monte Carlo test
is the same for every permutation of the PnL sequence, and consequently
the p-value returned by `_monte_carlo_test` is the same for any two
draws of 1000 shuffles. -/
theorem mc_pvalue_perm_invariant (trades : List SimulatedTrade)
    (origM : BacktestMetrics) (perms1 perms2 : List (List ℚ))
    (h10 : 10 ≤ origM.total_trades)
    (hloss : ((trades.map (·.pnl_pips)).filter (fun p => decide (p < 0))).sum ≠ 0)
    (hp1 : ∀ p ∈ perms1, p.Perm (trades.map (·.pnl_pips)))
    (hp2 : ∀ p ∈ perms2, p.Perm (trades.map (·.pnl_pips)))
    (hl1 : perms1.length = 1000) (hl2 : perms2.length = 1000) :
    (∀ p ∈ perms1, profitFactorRaw p = profitFactorRaw (trades.map (·.pnl_pips))) ∧
    monteCarloPValue trades origM perms1 = monteCarloPValue trades origM perms2 := by
  have hinv1 : ∀ p ∈ perms1, profitFactorRaw p = profitFactorRaw (trades.map (·.pnl_pips)) :=
    fun p hp => profitFactorRaw_congr_perm (hp1 p hp)
  have hinv2 : ∀ p ∈ perms2, profitFactorRaw p = profitFactorRaw (trades.map (·.pnl_pips)) :=
    fun p hp => profitFactorRaw_congr_perm (hp2 p hp)
  refine ⟨hinv1, ?_⟩
  unfold monteCarloPValue
  by_cases hc : trades = [] ∨ origM.total_trades < 10
  · simp [hc]
  · rw [if_neg hc, if_neg hc]
    have c1 := countP_eq_of_const
      (fun p => decide (origM.profit_factor ≤ profitFactorRaw p))
      (decide (origM.profit_factor ≤ profitFactorRaw (trades.map (·.pnl_pips)))) perms1
      (fun p hp => by simp only [hinv1 p hp])
    have c2 := countP_eq_of_const
      (fun p => decide (origM.profit_factor ≤ profitFactorRaw p))
      (decide (origM.profit_factor ≤ profitFactorRaw (trades.map (·.pnl_pips)))) perms2
      (fun p hp => by simp only [hinv2 p hp])
    rw [c1, c2, hl1, hl2]

/-- Witness for C1 at a concrete 10-trade list and two concrete draws of
1000 shuffles. -/
theorem mc_pvalue_perm_invariant_witness :
    profitFactorRaw mcPnl = profitFactorRaw (mcTrades.map (·.pnl_pips)) ∧
    monteCarloPValue mcTrades mcMetrics mcPerms1
      = monteCarloPValue mcTrades mcMetrics mcPerms2 := by
  have h := mc_pvalue_perm_invariant mcTrades mcMetrics mcPerms1 mcPerms2
    (by norm_num [mcMetrics])
    (by norm_num [mcTrades, List.filter])
    (fun p hp => by
      have hp' : p = mcPnl :=
        List.eq_of_mem_replicate (show p ∈ List.replicate 1000 mcPnl from hp)
      subst hp'
      exact List.Perm.refl mcPnl)
    (fun p hp => by
      have hp' : p = mcPnl.reverse :=
        List.eq_of_mem_replicate (show p ∈ List.replicate 1000 mcPnl.reverse from hp)
      subst hp'
      exact mcPnl.reverse_perm)
    (by unfold mcPerms1; exact List.length_replicate ..)
    (by unfold mcPerms2; exact List.length_replicate ..)
  exact ⟨h.1 mcPnl (by unfold mcPerms1; exact List.mem_replicate.mpr ⟨by norm_num, rfl⟩), h.2⟩

/-! ## Claim C5 — walk-forward inconclusive / overfitting flag -/

/-- C5: when the out-of-sample trade count is below 5 the result is
marked `insufficient_oos_trades` and the overfitting flag is not set;
otherwise the flag is set exactly when a defined out-of-sample/in-sample
efficiency (win rate or profit factor, defined when the in-sample metric
is positive) falls below the 0.5 threshold. -/
theorem walk_forward_judgment (isM oosM : BacktestMetrics) :
    (oosM.total_trades < 5 →
      (walkForwardJudge isM oosM).insufficient_oos_trades = true ∧
      (walkForwardJudge isM oosM).is_overfitted = false) ∧
    (5 ≤ oosM.total_trades →
      ((walkForwardJudge isM oosM).insufficient_oos_trades = false ∧
        ((walkForwardJudge isM oosM).is_overfitted = true ↔
          ((0 < isM.win_rate ∧ oosM.win_rate / isM.win_rate < 1/2) ∨
           (0 < isM.profit_factor ∧ oosM.profit_factor / isM.profit_factor < 1/2))))) := by
  constructor
  · intro h
    simp [walkForwardJudge, h]
  · intro h
    have h' : ¬ oosM.total_trades < 5 := Nat.not_lt.mpr h
    refine ⟨by simp [walkForwardJudge, h'], ?_⟩
    simp only [walkForwardJudge, if_neg h']
    by_cases hwr : 0 < isM.win_rate <;> by_cases hpf : 0 < isM.profit_factor <;>
      simp [hwr, hpf]

/-- Witness for C5: the spec's example — in-sample win rate 0.8 versus
out-of-sample 0.2 on 10 out-of-sample trades is flagged (ratio 0.25),
while the same metrics with only 3 out-of-sample trades are marked
inconclusive and not flagged. -/
theorem walk_forward_judgment_witness :
    (walkForwardJudge ⟨8/10, 2, 1, 10, 5, 40⟩ ⟨2/10, 2, 1, 10, 5, 10⟩).is_overfitted = true ∧
    (walkForwardJudge ⟨8/10, 2, 1, 10, 5, 40⟩ ⟨2/10, 2, 1, 10, 5, 3⟩).insufficient_oos_trades
        = true ∧
    (walkForwardJudge ⟨8/10, 2, 1, 10, 5, 40⟩ ⟨2/10, 2, 1, 10, 5, 3⟩).is_overfitted = false := by
  refine ⟨?_, ?_, ?_⟩
  · exact (((walk_forward_judgment ⟨8/10, 2, 1, 10, 5, 40⟩ ⟨2/10, 2, 1, 10, 5, 10⟩).2
      (by norm_num)).2).mpr (Or.inl (by norm_num))
  · exact ((walk_forward_judgment ⟨8/10, 2, 1, 10, 5, 40⟩ ⟨2/10, 2, 1, 10, 5, 3⟩).1
      (by norm_num)).1
  · exact ((walk_forward_judgment ⟨8/10, 2, 1, 10, 5, 40⟩ ⟨2/10, 2, 1, 10, 5, 3⟩).1
      (by norm_num)).2

/-! ## Claim C9 — position sizing formula and fallback -/

/-- C9: for strictly positive stop distance and ATRs the position size is
`(accountBalance * 0.01 / stopDistance) * clamp(baselineATR / currentATR,
0.5, 1.5)` rounded to 2 decimal places, and any non-positive input yields
the minimum fallback size 0.01 (the function is total: no error path). -/
theorem position_size_spec (balance d c b : ℚ) :
    (0 < d → 0 < c → 0 < b →
      calculatePositionSize balance d c b
        = round2 (balance * (1/100) / d * clampQ (b / c) (1/2) (3/2))) ∧
    (d ≤ 0 ∨ c ≤ 0 ∨ b ≤ 0 → calculatePositionSize balance d c b = 1/100) := by
  constructor
  · intro hd hc hb
    have hneg : ¬ (d ≤ 0 ∨ c ≤ 0 ∨ b ≤ 0) := by
      push_neg
      exact ⟨hd, hc, hb⟩
    rw [calculatePositionSize, if_neg hneg]
    have hclamp : max (1/2 : ℚ) (min (3/2) (b / c)) = clampQ (b / c) (1/2) (3/2) := by
      unfold clampQ
      simp only [min_def, max_def]
      split_ifs <;> linarith
    rw [hclamp]
  · intro h
    rw [calculatePositionSize, if_pos h]

/-- Witness for C9: balance 10000, stop distance 2, both ATRs 1 gives a
size of 50.00; a non-positive stop distance gives the fallback 0.01. -/
theorem position_size_spec_witness :
    calculatePositionSize 10000 2 1 1
      = round2 (10000 * (1/100) / 2 * clampQ (1 / 1) (1/2) (3/2)) ∧
    calculatePositionSize 10000 0 1 1 = 1/100 := by
  constructor
  · exact (position_size_spec 10000 2 1 1).1 (by norm_num) (by norm_num) (by norm_num)
  · exact (position_size_spec 10000 0 1 1).2 (Or.inl (by norm_num))

/-! ## Claim C10 — metrics on empty input and on an all-winning set -/

/-- C10: the metrics calculator on an empty trade list returns all-zero
metrics with trade count 0 (it is a total function, so no error is
possible), and on the all-winning set with pip PnL `[50, 100, 30]` it
returns win rate 1.0 and profit factor 9999.9999 — for every value of
the square-root oracle, which the claim's fields do not depend on. -/
theorem metrics_empty_and_all_win (sqrtQ : ℚ → ℚ) :
    compute sqrtQ [] = ⟨0, 0, 0, 0, 0, 0⟩ ∧
    (compute sqrtQ winTrades).win_rate = 1 ∧
    (compute sqrtQ winTrades).profit_factor = 99999999 / 10000 ∧
    (compute sqrtQ winTrades).total_trades = 3 := by
  refine ⟨rfl, ?_, ?_, rfl⟩
  · show round4 ((3 : ℚ) / 3) = 1
    norm_num [round4, roundQ]
  · show round4 (if _ = 0 then _ else _) = 99999999 / 10000
    norm_num [winTrades, round4, roundQ]

/-! ## Claim C2 — circuit-breaker deactivation -/

/-- C2 counterexample: with the breaker active for one hour and the
recorded outcomes ending in a single loss (one consecutive loss, no
drawdown trigger), the check deactivates the breaker immediately even
though the most recent outcome is `sl_hit`, not a win — refuting the
claim that immediate deactivation happens only when the most recent
outcome is a win. -/
theorem circuit_breaker_deactivation_counterexample :
    checkCircuitBreaker ⟨true, some 0⟩ 3600 cbOuts = (⟨false, none⟩, false) ∧
    ((cbOuts.map (·.result)).reverse).head? = some OutcomeRes.sl_hit ∧
    OutcomeRes.sl_hit ≠ OutcomeRes.tp1_hit ∧ OutcomeRes.sl_hit ≠ OutcomeRes.tp2_hit ∧
    ((3600 : ℚ) - 0) / 3600 < 24 := by
  refine ⟨?_, rfl, by decide, by decide, by norm_num⟩
  show checkCircuitBreaker ⟨true, some 0⟩ 3600 cbOuts = (⟨false, none⟩, false)
  norm_num [checkCircuitBreaker, cbOuts, countConsecutiveLosses, drawdownMetrics,
    round2, roundQ, round_eq, List.foldl]
  decide

/-- C2 (amended): while the breaker is active and fewer than 24 hours
have elapsed since activation, a check deactivates it immediately if and
only if neither trigger condition holds (consecutive losing/expired
count below 5 and no 2x-drawdown excess) — regardless of whether the
most recent recorded outcome is a win; after 24 hours with no new
trigger it deactivates automatically. -/
theorem circuit_breaker_deactivation (st : CBState) (now t : ℚ) (outs : List OutcomeRow)
    (hA : st.active = true) (htr : st.triggeredAt = some t) :
    ((now - t) / 3600 < 24 →
      (¬ cbTriggers outs → checkCircuitBreaker st now outs = (⟨false, none⟩, false)) ∧
      (cbTriggers outs → checkCircuitBreaker st now outs = (st, true))) ∧
    (24 ≤ (now - t) / 3600 → ¬ cbTriggers outs →
      checkCircuitBreaker st now outs = (⟨false, none⟩, false)) := by
  constructor
  · intro hlt
    have hcool : ¬ (st.active = true ∧ 24 ≤ (now - t) / 3600) :=
      fun h => absurd h.2 (not_le.mpr hlt)
    constructor
    · intro hnt
      unfold cbTriggers at hnt
      push_neg at hnt
      obtain ⟨h5, hdd⟩ := hnt
      have h5' : ¬ 5 ≤ countConsecutiveLosses ((outs.map (·.result)).reverse) :=
        Nat.not_le.mpr h5
      simp only [checkCircuitBreaker, htr, if_neg hcool]
      rw [if_neg h5',
        if_neg (fun hc => absurd hc.2 (not_lt.mpr (hdd hc.1))), if_pos hA]
    · intro ht
      unfold cbTriggers at ht
      simp only [checkCircuitBreaker, htr, if_neg hcool]
      rcases ht with h5 | hdd
      · rw [if_pos h5, if_pos hA]
      · by_cases h5 : 5 ≤ countConsecutiveLosses ((outs.map (·.result)).reverse)
        · rw [if_pos h5, if_pos hA]
        · rw [if_neg h5, if_pos hdd, if_pos hA]
  · intro h24 hnt
    have hcool : st.active = true ∧ 24 ≤ (now - t) / 3600 := ⟨hA, h24⟩
    unfold cbTriggers at hnt
    push_neg at hnt
    obtain ⟨h5, hdd⟩ := hnt
    have h5' : ¬ 5 ≤ countConsecutiveLosses ((outs.map (·.result)).reverse) :=
      Nat.not_le.mpr h5
    simp only [checkCircuitBreaker, htr, if_pos hcool]
    rw [if_neg h5', if_neg (fun hc => absurd hc.2 (not_lt.mpr (hdd hc.1)))]
    simp

/-- Witness for the amended C2 at the counterexample's input: active for
one hour, one consecutive loss, no drawdown trigger — deactivated. -/
theorem circuit_breaker_deactivation_witness :
    checkCircuitBreaker ⟨true, some (0 : ℚ)⟩ 3600 cbOuts = (⟨false, none⟩, false) := by
  have h := circuit_breaker_deactivation ⟨true, some 0⟩ 3600 0 cbOuts rfl rfl
  refine (h.1 (by norm_num)).1 ?_
  unfold cbTriggers
  norm_num [cbOuts, countConsecutiveLosses, drawdownMetrics, round2, roundQ,
    round_eq, List.foldl]
  decide

/-! ## Claim C8 — circuit breaker halts the whole risk gate -/

/-- C8: when the circuit-breaker check performed at batch entry reports
the breaker active, every candidate of the batch is rejected with the
"circuit breaker active" reason and the gate stops — the result is the
same for every value of the daily-PnL, active-signal-count, balance and
ATR inputs, so the daily-loss check, the concurrency check and position
sizing are not evaluated. -/
theorem circuit_breaker_halts_gate (cands : List CandidateSignal) (st : CBState)
    (now : ℚ) (outs : List OutcomeRow)
    (h : (checkCircuitBreaker st now outs).2 = true)
    (dailyPnlPips : ℚ) (activeCount : ℕ) (balance currentAtr baselineAtr : ℚ) :
    riskCheck cands st now outs dailyPnlPips activeCount balance currentAtr baselineAtr
      = cands.map (fun c => (c, circuitRejection)) := by
  cases cands with
  | nil => rfl
  | cons a l =>
    show (if (checkCircuitBreaker st now outs).2 = true then _ else _) = _
    rw [if_pos h]

/-- Witness for C8: five consecutive losses activate the breaker, and the
single-candidate batch is rejected with the circuit-breaker reason. -/
theorem circuit_breaker_halts_gate_witness :
    riskCheck [exSignalBuy] ⟨false, none⟩ 0 cbLossOuts 0 0 10000 1 1
      = [(exSignalBuy, circuitRejection)] :=
  circuit_breaker_halts_gate [exSignalBuy] ⟨false, none⟩ 0 cbLossOuts rfl 0 0 10000 1 1

/-! ## Claim C7 — fetch window preference -/

/-- Fold membership: the row selected by `pickLatest` comes from the
starting accumulator or from the list. -/
theorem pickLatest_foldl_mem (l : List BTRow) :
    ∀ (acc : Option BTRow) (r : BTRow), l.foldl pickLatest acc = some r →
      acc = some r ∨ r ∈ l := by
  induction l with
  | nil => intro acc r h; exact Or.inl h
  | cons a t ih =>
    intro acc r h
    rcases ih (pickLatest acc a) r h with h' | h'
    · cases acc with
      | none =>
        have ha : a = r := by simpa [pickLatest] using h'
        exact Or.inr (ha ▸ List.mem_cons_self a t)
      | some b =>
        by_cases hlt : b.created_at < a.created_at
        · have ha : a = r := by simpa [pickLatest, hlt] using h'
          exact Or.inr (ha ▸ List.mem_cons_self a t)
        · have hb : some b = some r := by simpa [pickLatest, hlt] using h'
          exact Or.inl hb
    · exact Or.inr (List.mem_cons_of_mem a h')

/-- Folding `pickLatest` from a present accumulator stays present. -/
theorem pickLatest_foldl_isSome (l : List BTRow) :
    ∀ acc : Option BTRow, acc.isSome → (l.foldl pickLatest acc).isSome := by
  induction l with
  | nil => intro acc h; exact h
  | cons a t ih =>
    intro acc _
    rw [List.foldl_cons]
    apply ih
    cases acc with
    | none => rfl
    | some b =>
      unfold pickLatest
      split
      · rfl
      · split <;> rfl

/-- A row returned by `_latest_result_for` satisfies its own filter. -/
theorem latestResultFor_eligible (rows : List BTRow) (sid : ℕ) (w : Option ℕ)
    (r : BTRow) (h : latestResultFor rows sid w = some r) : eligible sid w r = true := by
  rcases pickLatest_foldl_mem (rows.filter (eligible sid w)) none r h with h' | h'
  · exact absurd h' (by simp)
  · exact List.of_mem_filter h'

/-- `_latest_result_for` finds a row whenever an eligible one exists. -/
theorem latestResultFor_isSome (rows : List BTRow) (sid : ℕ) (w : Option ℕ)
    (h : ∃ r ∈ rows, eligible sid w r = true) : (latestResultFor rows sid w).isSome := by
  obtain ⟨r, hmem, helig⟩ := h
  have hf : r ∈ rows.filter (eligible sid w) := List.mem_filter.mpr ⟨hmem, helig⟩
  unfold latestResultFor
  cases hl : rows.filter (eligible sid w) with
  | nil => rw [hl] at hf; exact absurd hf (List.not_mem_nil r)
  | cons a t =>
    exact pickLatest_foldl_isSome t (pickLatest none a) rfl

/-- C7 counterexample: strategy 1 has both a 7-day-window result (the
most recent row) and a 14-day-window result, yet the fetch returns the
14-day row — refuting the claim that the shortest available window (the
7-day result) is preferred. -/
theorem fetch_window_counterexample :
    exR7 ∈ exRows ∧ exR7.window_days = 7 ∧ exR14.window_days = 14 ∧
    exR14.created_at < exR7.created_at ∧
    fetchLatestFor exRows 1 = some exR14 ∧ exR14 ≠ exR7 := by decide

/-- C7 (amended): the per-strategy fetch prefers windows in the order
14, 30, 60, 7, then any; in particular a strategy that has an eligible
14-day-window result always has its most recent 14-day result used, even
when a 7-day result exists. -/
theorem fetch_prefers_14 (rows : List BTRow) (sid : ℕ)
    (h : ∃ r ∈ rows, eligible sid (some 14) r = true) :
    ∃ r0, fetchLatestFor rows sid = some r0 ∧ r0.window_days = 14 ∧
      latestResultFor rows sid (some 14) = some r0 := by
  obtain ⟨r0, h14⟩ := Option.isSome_iff_exists.mp (latestResultFor_isSome rows sid (some 14) h)
  refine ⟨r0, ?_, ?_, h14⟩
  · unfold fetchLatestFor
    rw [h14]
  · have := latestResultFor_eligible rows sid (some 14) r0 h14
    simp only [eligible, Bool.and_eq_true, decide_eq_true_eq] at this
    exact this.2

/-- Witness for the amended C7 at the concrete rows: the 14-day row is
fetched although a more recent 7-day row exists. -/
theorem fetch_prefers_14_witness :
    fetchLatestFor exRows 1 = some exR14 ∧ exR14.window_days = 14 := by
  obtain ⟨r0, h1, h2, h3⟩ := fetch_prefers_14 exRows 1 ⟨exR14, by decide, by decide⟩
  have hr : r0 = exR14 := by
    have hc : latestResultFor exRows 1 (some 14) = some exR14 := by decide
    exact Option.some.inj (h3.symm.trans hc)
  exact ⟨hr ▸ h1, hr ▸ h2⟩

/-! ## Claims C3 and C4 — simulator exit discipline -/

/-- If every bar before position `i` triggers nothing and the bar at `i`
satisfies the stop-loss condition, the walk exits with `SL_HIT` at the
stop level on that bar. -/
theorem walkBars_sl_first (isBuy : Bool) (sl tp1 tp2 spread : ℚ) :
    ∀ (bars : List Bar) (k i : ℕ) (hi : i < bars.length),
      (∀ j (hj : j < i), noExit isBuy sl tp1 tp2 spread (bars.get ⟨j, lt_trans hj hi⟩)) →
      slCond isBuy sl spread (bars.get ⟨i, hi⟩) = true →
      walkBars isBuy sl tp1 tp2 spread bars k = some (.SL_HIT, sl, k + i) := by
  intro bars
  induction bars with
  | nil => intro k i hi; exact absurd hi (Nat.not_lt_zero i)
  | cons b rest ih =>
    intro k i hi hprev hsl
    cases i with
    | zero =>
      show (if slCond isBuy sl spread b then _ else _) = _
      rw [if_pos (by exact hsl)]
      rfl
    | succ j =>
      have hb : noExit isBuy sl tp1 tp2 spread b := hprev 0 (Nat.succ_pos j)
      show (if slCond isBuy sl spread b then _ else _) = _
      rw [if_neg (by rw [hb.1]; exact Bool.false_ne_true),
        if_neg (by rw [hb.2.1]; exact Bool.false_ne_true),
        if_neg (by rw [hb.2.2]; exact Bool.false_ne_true)]
      have := ih (k + 1) j (Nat.lt_of_succ_lt_succ hi)
        (fun j' hj' => hprev (j' + 1) (Nat.succ_lt_succ hj')) hsl
      rw [this, Nat.add_assoc, Nat.add_comm 1 j]

/-- If no bar triggers any exit condition, the walk finds nothing. -/
theorem walkBars_none_of_all (isBuy : Bool) (sl tp1 tp2 spread : ℚ) :
    ∀ (bars : List Bar) (k : ℕ),
      (∀ b ∈ bars, noExit isBuy sl tp1 tp2 spread b) →
      walkBars isBuy sl tp1 tp2 spread bars k = none := by
  intro bars
  induction bars with
  | nil => intro k _; rfl
  | cons b rest ih =>
    intro k hall
    have hb := hall b (List.mem_cons_self b rest)
    show (if slCond isBuy sl spread b then _ else _) = _
    rw [if_neg (by rw [hb.1]; exact Bool.false_ne_true),
      if_neg (by rw [hb.2.1]; exact Bool.false_ne_true),
      if_neg (by rw [hb.2.2]; exact Bool.false_ne_true)]
    exact ih (k + 1) (fun x hx => hall x (List.mem_cons_of_mem b hx))

/-- Any exit found by the walk is at the stop, TP2 or TP1 level. -/
theorem walkBars_exit_level (isBuy : Bool) (sl tp1 tp2 spread : ℚ) :
    ∀ (bars : List Bar) (k : ℕ) (o : TradeOutcome) (x : ℚ) (j : ℕ),
      walkBars isBuy sl tp1 tp2 spread bars k = some (o, x, j) →
      x = sl ∨ x = tp2 ∨ x = tp1 := by
  intro bars
  induction bars with
  | nil => intro k o x j h; exact absurd h (by simp [walkBars])
  | cons b rest ih =>
    intro k o x j h
    by_cases h1 : slCond isBuy sl spread b
    · simp only [walkBars, if_pos h1] at h
      exact Or.inl (congrArg (fun p => p.2.1) (Option.some.inj h)).symm
    · by_cases h2 : tp2Cond isBuy tp2 b
      · simp only [walkBars, if_neg h1, if_pos h2] at h
        exact Or.inr (Or.inl (congrArg (fun p => p.2.1) (Option.some.inj h)).symm)
      · by_cases h3 : tp1Cond isBuy tp1 b
        · simp only [walkBars, if_neg h1, if_neg h2, if_pos h3] at h
          exact Or.inr (Or.inr (congrArg (fun p => p.2.1) (Option.some.inj h)).symm)
        · simp only [walkBars, if_neg h1, if_neg h2, if_neg h3] at h
          exact ih (k + 1) o x j h

/-- Two-decimal fixed-point values survive the output rounding. -/
theorem round2_twoDP {x : ℚ} (h : TwoDP x) : round2 x = x := by
  obtain ⟨z, hz⟩ := h
  subst hz
  unfold round2 roundQ
  have hx : (z : ℚ) / 100 * 10 ^ 2 = (z : ℚ) := by
    rw [show ((10 : ℚ) ^ 2) = 100 by norm_num]
    exact div_mul_cancel₀ _ (by norm_num)
  rw [hx, round_intCast]
  norm_num

/-- Two-decimal fixed-point values are closed under addition. -/
theorem TwoDP.add {x y : ℚ} (hx : TwoDP x) (hy : TwoDP y) : TwoDP (x + y) := by
  obtain ⟨a, ha⟩ := hx
  obtain ⟨b, hb⟩ := hy
  exact ⟨a + b, by rw [ha, hb]; push_cast; ring⟩

/-- C3: if every earlier bar of the walked horizon triggers nothing (so
the bar is reached by the walk) and on that bar both the stop-loss
condition and a take-profit condition hold, the simulated outcome is
`SL_HIT`, never `TP1_HIT` or `TP2_HIT`. -/
theorem sl_priority (sig : CandidateSignal) (candles : List Bar) (signalBarIdx : ℕ)
    (spread : ℚ) (i : ℕ) (hi : i < (walkedBars candles signalBarIdx).length)
    (hprev : ∀ j (hj : j < i),
      noExit (isBuySig sig) sig.stop_loss sig.take_profit_1 sig.take_profit_2 spread
        ((walkedBars candles signalBarIdx).get ⟨j, lt_trans hj hi⟩))
    (hsl : slCond (isBuySig sig) sig.stop_loss spread
      ((walkedBars candles signalBarIdx).get ⟨i, hi⟩) = true)
    (htp : tp1Cond (isBuySig sig) sig.take_profit_1
        ((walkedBars candles signalBarIdx).get ⟨i, hi⟩) = true ∨
      tp2Cond (isBuySig sig) sig.take_profit_2
        ((walkedBars candles signalBarIdx).get ⟨i, hi⟩) = true) :
    (simulateTrade sig candles signalBarIdx spread).outcome = TradeOutcome.SL_HIT := by
  have hw := walkBars_sl_first (isBuySig sig) sig.stop_loss sig.take_profit_1
    sig.take_profit_2 spread (walkedBars candles signalBarIdx) 1 i hi hprev hsl
  simp only [simulateTrade, hw]

/-- Witness for C3: a BUY trade whose second bar has low 98 (below the
stop 99) and high 104 (above both take-profits) exits `SL_HIT`. -/
theorem sl_priority_witness :
    (simulateTrade exSignalBuy exCandlesBoth 0 (3/10)).outcome = TradeOutcome.SL_HIT := by
  refine sl_priority exSignalBuy exCandlesBoth 0 (3/10) 0 (by decide)
    (fun j hj => absurd hj (Nat.not_lt_zero j)) ?_ (Or.inl ?_) <;> decide

/-- C4 (amended): when no stop or take-profit level is crossed on any
bar of the 72-bar horizon, the outcome is `EXPIRED` with exit at the
last examined bar's close — or, when zero bars are available after the
signal bar, at the spread-adjusted entry with zero bars held; in every
case the exit price equals one of the stop, TP1, TP2, the last examined
bar's close, or (zero-bars case only) the spread-adjusted entry.  The
two-decimal hypotheses state that all prices involved are fixed-point
values with 2 decimal places, so the output rounding is the identity. -/
theorem simulate_exit_characterization (sig : CandidateSignal) (candles : List Bar)
    (signalBarIdx : ℕ) (spread : ℚ)
    (h2sl : TwoDP sig.stop_loss) (h2tp1 : TwoDP sig.take_profit_1)
    (h2tp2 : TwoDP sig.take_profit_2) (h2e : TwoDP sig.entry_price) (h2sp : TwoDP spread)
    (h2c : ∀ b ∈ candles, TwoDP b.close) :
    ((∀ b ∈ walkedBars candles signalBarIdx,
        noExit (isBuySig sig) sig.stop_loss sig.take_profit_1 sig.take_profit_2 spread b) →
      (simulateTrade sig candles signalBarIdx spread).outcome = TradeOutcome.EXPIRED ∧
      (simulateTrade sig candles signalBarIdx spread).exit_price
        = expiryExit sig candles signalBarIdx spread) ∧
    ((simulateTrade sig candles signalBarIdx spread).exit_price = sig.stop_loss ∨
     (simulateTrade sig candles signalBarIdx spread).exit_price = sig.take_profit_1 ∨
     (simulateTrade sig candles signalBarIdx spread).exit_price = sig.take_profit_2 ∨
     (simulateTrade sig candles signalBarIdx spread).exit_price
        = expiryExit sig candles signalBarIdx spread) := by
  have hclose : ∀ lb : Bar, (walkedBars candles signalBarIdx).getLast? = some lb →
      TwoDP lb.close := by
    intro lb hl
    obtain ⟨hne, heq⟩ := List.mem_getLast?_eq_getLast
      (show lb ∈ (walkedBars candles signalBarIdx).getLast? from hl)
    have h1 : lb ∈ walkedBars candles signalBarIdx := heq ▸ List.getLast_mem hne
    have h2 : lb ∈ candles := by
      unfold walkedBars at h1
      exact List.mem_of_mem_drop (List.mem_of_mem_take h1)
    exact h2c lb h2
  constructor
  · intro hall
    have hw := walkBars_none_of_all (isBuySig sig) sig.stop_loss sig.take_profit_1
      sig.take_profit_2 spread (walkedBars candles signalBarIdx) 1 hall
    cases hl : (walkedBars candles signalBarIdx).getLast? with
    | none =>
      refine ⟨by simp only [simulateTrade, hw, hl], ?_⟩
      simp only [simulateTrade, hw, hl, expiryExit]
      cases hb : isBuySig sig with
      | false => simpa using round2_twoDP h2e
      | true => simpa using round2_twoDP (h2e.add h2sp)
    | some lb =>
      refine ⟨by simp only [simulateTrade, hw, hl], ?_⟩
      simp only [simulateTrade, hw, hl, expiryExit]
      exact round2_twoDP (hclose lb hl)
  · cases hw : walkBars (isBuySig sig) sig.stop_loss sig.take_profit_1
      sig.take_profit_2 spread (walkedBars candles signalBarIdx) 1 with
    | none =>
      right; right; right
      cases hl : (walkedBars candles signalBarIdx).getLast? with
      | none =>
        simp only [simulateTrade, hw, hl, expiryExit]
        cases hb : isBuySig sig with
        | false => simpa using round2_twoDP h2e
        | true => simpa using round2_twoDP (h2e.add h2sp)
      | some lb =>
        simp only [simulateTrade, hw, hl, expiryExit]
        exact round2_twoDP (hclose lb hl)
    | some v =>
      obtain ⟨o, x, j⟩ := v
      rcases walkBars_exit_level (isBuySig sig) sig.stop_loss sig.take_profit_1
        sig.take_profit_2 spread (walkedBars candles signalBarIdx) 1 o x j hw with
        hx | hx | hx
      · left
        simp only [simulateTrade, hw, hx]
        exact round2_twoDP h2sl
      · right; right; left
        simp only [simulateTrade, hw, hx]
        exact round2_twoDP h2tp2
      · right; left
        simp only [simulateTrade, hw, hx]
        exact round2_twoDP h2tp1

/-- C4 counterexample: when the signal bar is the last bar of the series
(zero bars available after it), the simulated trade expires at the
spread-adjusted entry `100 + 0.30`, which is none of the stop, TP1, TP2
or any bar's close — refuting the claim that the exit price always
equals one of stop, TP1, TP2 or the last bar's close. -/
theorem simulate_zero_bars_counterexample :
    (simulateTrade exSignalBuy exCandles1 0 (3/10)).outcome = TradeOutcome.EXPIRED ∧
    (simulateTrade exSignalBuy exCandles1 0 (3/10)).bars_held = 0 ∧
    (simulateTrade exSignalBuy exCandles1 0 (3/10)).exit_price ≠ exSignalBuy.stop_loss ∧
    (simulateTrade exSignalBuy exCandles1 0 (3/10)).exit_price ≠ exSignalBuy.take_profit_1 ∧
    (simulateTrade exSignalBuy exCandles1 0 (3/10)).exit_price ≠ exSignalBuy.take_profit_2 ∧
    (simulateTrade exSignalBuy exCandles1 0 (3/10)).exit_price ≠ (100 : ℚ) ∧
    exCandles1 = [⟨100, 100, 100⟩] := by
  have hx : (simulateTrade exSignalBuy exCandles1 0 (3/10)).exit_price = 1003/10 := by
    show round2 (100 + 3/10) = 1003/10
    norm_num [round2, roundQ, round_eq]
  refine ⟨rfl, rfl, ?_, ?_, ?_, ?_, rfl⟩ <;> rw [hx] <;> norm_num [exSignalBuy]

/-- Witness for the amended C4 at a concrete input where an exit does
trigger: the exit price is one of the four characterized levels. -/
theorem simulate_exit_characterization_witness :
    (simulateTrade exSignalBuy exCandlesBoth 0 (3/10)).exit_price = exSignalBuy.stop_loss ∨
    (simulateTrade exSignalBuy exCandlesBoth 0 (3/10)).exit_price = exSignalBuy.take_profit_1 ∨
    (simulateTrade exSignalBuy exCandlesBoth 0 (3/10)).exit_price = exSignalBuy.take_profit_2 ∨
    (simulateTrade exSignalBuy exCandlesBoth 0 (3/10)).exit_price
      = expiryExit exSignalBuy exCandlesBoth 0 (3/10) :=
  (simulate_exit_characterization exSignalBuy exCandlesBoth 0 (3/10)
    ⟨9900, by norm_num [exSignalBuy]⟩ ⟨10200, by norm_num [exSignalBuy]⟩
    ⟨10300, by norm_num [exSignalBuy]⟩ ⟨10000, by norm_num [exSignalBuy]⟩
    ⟨30, by norm_num⟩
    (by
      intro b hb
      simp only [exCandlesBoth, List.mem_cons, List.not_mem_nil, or_false] at hb
      rcases hb with h | h
      · exact h ▸ ⟨10000, by norm_num⟩
      · exact h ▸ ⟨10100, by norm_num⟩)).2

/-! ## Claim C6 — optimizer gates and fallback -/

/-- Inserting preserves length plus one. -/
theorem insertDesc_length {β : Type} (score : β → ℚ) (x : β) :
    ∀ l : List β, (insertDesc score x l).length = l.length + 1 := by
  intro l
  induction l with
  | nil => rfl
  | cons y ys ih =>
    unfold insertDesc
    split
    · rfl
    · simp only [List.length_cons, ih]

/-- Sorting preserves length. -/
theorem sortByScoreDesc_length {β : Type} (score : β → ℚ) :
    ∀ l : List β, (sortByScoreDesc score l).length = l.length := by
  intro l
  induction l with
  | nil => rfl
  | cons x xs ih =>
    unfold sortByScoreDesc
    rw [insertDesc_length, ih]
    rfl

/-- The validation loop returns exactly the first top-candidate clearing
all three gates, packaged by `passResult` — i.e. each candidate before it
is rejected at a failing gate. -/
theorem validateLoop_eq_find {α : Type} (name : String) (total : ℕ)
    (wf : α → WalkForwardResult) (mcP : α → ℚ) (btW : α → ℕ → BacktestMetrics) :
    ∀ l : List (α × BacktestMetrics),
      validateLoop name total wf mcP btW l
        = (l.find? (passGates wf mcP btW)).map (passResult name total wf mcP) := by
  intro l
  induction l with
  | nil => rfl
  | cons c rest ih =>
    unfold validateLoop
    by_cases h1 : (wf c.1).is_overfitted = true
    · rw [if_pos h1, ih, List.find?_cons_of_neg rest (by simp [passGates, h1])]
    · rw [if_neg h1]
      by_cases h2 : 1/20 < mcP c.1
      · rw [if_pos h2, ih, List.find?_cons_of_neg rest (by
          simp only [passGates, Bool.and_eq_true, decide_eq_true_eq]
          intro hcontra
          exact absurd hcontra.1.2 (not_le.mpr h2))]
      · by_cases h3 : windowsPassed btW c.1 < 2
        · rw [if_neg h2, if_pos h3, ih, List.find?_cons_of_neg rest (by
            simp only [passGates, Bool.and_eq_true, decide_eq_true_eq]
            intro hcontra
            exact absurd hcontra.2 (Nat.not_le.mpr h3))]
        · rw [if_neg h2, if_neg h3, List.find?_cons_of_pos rest (by
            simp only [passGates, Bool.and_eq_true, decide_eq_true_eq,
              Bool.not_eq_true']
            exact ⟨⟨Bool.not_eq_true _ |>.mp h1, not_lt.mp h2⟩, Nat.not_lt.mp h3⟩)]
          rfl

/-- C6: whenever at least one sampled parameter set produces 10 or more
trades, the optimizer returns a non-null result — either the first top-5
candidate clearing all three gates (walk-forward, Monte Carlo with its
p-value attached, multi-window), every earlier top-5 candidate being
rejected at a failing gate; or, when no top-5 candidate passes, the
single best-scored candidate flagged `is_overfitted = true`. -/
theorem optimizer_gate_fallback {α : Type} (name : String)
    (cands : List (α × BacktestMetrics)) (wf : α → WalkForwardResult) (mcP : α → ℚ)
    (btW : α → ℕ → BacktestMetrics) (h : ∃ c ∈ cands, 10 ≤ c.2.total_trades) :
    ∃ r, optimizeStrategy name cands wf mcP btW = some r ∧
      (match ((sortedCandidates cands).take 5).find? (passGates wf mcP btW) with
       | some c => r = passResult name cands.length wf mcP c ∧ r.is_overfitted = false ∧
           r.monte_carlo_pvalue = some (mcP c.1)
       | none => r.is_overfitted = true ∧ r.monte_carlo_pvalue = none ∧
           ∃ best, (sortedCandidates cands).head? = some best ∧
             r.best_params = best.1 ∧ r.metrics = best.2) := by
  obtain ⟨c, hmem, hc⟩ := h
  have hne : sortedCandidates cands ≠ [] := by
    intro hnil
    have hlen : (sortedCandidates cands).length = 0 := by rw [hnil]; rfl
    rw [sortedCandidates, sortByScoreDesc_length] at hlen
    have hf : c ∈ cands.filter (fun c => decide (10 ≤ c.2.total_trades)) :=
      List.mem_filter.mpr ⟨hmem, by simpa using hc⟩
    rw [List.length_eq_zero.mp hlen] at hf
    exact absurd hf (List.not_mem_nil c)
  obtain ⟨b, rest, hs⟩ : ∃ b rest, sortedCandidates cands = b :: rest := by
    cases hsc : sortedCandidates cands with
    | nil => exact absurd hsc hne
    | cons x xs => exact ⟨x, xs, rfl⟩
  · have hloop := validateLoop_eq_find name cands.length wf mcP btW
      ((sortedCandidates cands).take 5)
    cases hf : ((sortedCandidates cands).take 5).find? (passGates wf mcP btW) with
    | some cpass =>
      refine ⟨passResult name cands.length wf mcP cpass, ?_, ?_⟩
      · show (match sortedCandidates cands with
          | [] => none
          | best :: _ =>
            match validateLoop name cands.length wf mcP btW
                ((sortedCandidates cands).take 5) with
            | some r => some r
            | none => some ⟨name, best.1, best.2, none, true, cands.length, none⟩)
          = some (passResult name cands.length wf mcP cpass)
        rw [hloop, hf, hs]
        rfl
      · exact ⟨rfl, rfl, rfl⟩
    | none =>
      refine ⟨⟨name, b.1, b.2, none, true, cands.length, none⟩, ?_, ?_⟩
      · show (match sortedCandidates cands with
          | [] => none
          | best :: _ =>
            match validateLoop name cands.length wf mcP btW
                ((sortedCandidates cands).take 5) with
            | some r => some r
            | none => some ⟨name, best.1, best.2, none, true, cands.length, none⟩)
          = some ⟨name, b.1, b.2, none, true, cands.length, none⟩
        rw [hloop, hf, hs]
        rfl
      · exact ⟨rfl, rfl, b, by rw [hs]; rfl, rfl, rfl⟩

/-- Witness for C6: a single viable candidate (12 trades) that fails the
walk-forward gate still yields a non-null result, flagged overfitted. -/
theorem optimizer_gate_fallback_witness :
    optimizeStrategy "s" exCands exWf exMcP exBtW
      = some ⟨"s", 0, exM0, none, true, 1, none⟩ := by
  obtain ⟨r, hr, hm⟩ := optimizer_gate_fallback "s" exCands exWf exMcP exBtW
    ⟨(0, exM0), by simp [exCands], by norm_num [exM0]⟩
  have hfind : ((sortedCandidates exCands).take 5).find? (passGates exWf exMcP exBtW)
      = none := rfl
  rw [hfind] at hm
  obtain ⟨hov, hmc, best, hhead, hbp, hbm⟩ := hm
  have hbest : best = ((0 : ℕ), exM0) :=
    Option.some.inj (hhead.symm.trans (rfl : (sortedCandidates exCands).head?
      = some ((0 : ℕ), exM0)))
  have hval : r = ⟨"s", 0, exM0, none, true, 1, none⟩ :=
    Option.some.inj (hr.symm.trans (rfl : optimizeStrategy "s" exCands exWf exMcP exBtW
      = some ⟨"s", 0, exM0, none, true, 1, none⟩))
  rw [hr, hval]

end QuantLive
